import Mathlib

/-!
Verification of the Travel-Price repository scraping-and-alerting core.

The backend pipeline (price-watch service, scheduler task, scraper base
class) is specified in two implementation-plan documents in the repository
(`src/unnamed/part_012`, `src/unnamed/part_033`); where those documents
contain complete code (the Celery tick body) we embed that code, and where
only a signature or a contract exists (alert evaluation, due-watch query
body, retry loop, rate limiter) we model the component from the spec.
The web client (`src/frontend`) and iOS client are real code and are
embedded directly (validators, form submission, chart aggregation).

Time is modelled as minutes since an arbitrary epoch (`Nat`); prices are
integer minor currency units (cents, `Int`); dollar amounts parsed from
form fields are exact rationals.
-/

namespace TravelPrice

/-! ## Data model

`PriceWatch` mirrors the ORM model declared in the Feature 5 plan
(`src/unnamed/part_012`, Step A1): identity and reference fields
(ids, provider, currency, cabin class) are omitted except where a claim
needs them; the scheduling and alerting fields are kept verbatim.
-/

/-- One immutable observed price (cents), with an identity so that an
Alert can be said to reference a particular snapshot. -/
structure PriceSnapshot where
  snapId : Nat
  price : Int
  deriving Repr, DecidableEq

/-- The price-watch row: fields from the plan document Step A1 that the
scheduling and alerting logic reads or writes. -/
structure PriceWatch where
  is_active : Bool
  target_price : Int
  check_interval_minutes : Nat
  alert_cooldown_hours : Nat
  last_checked_at : Option Nat
  last_alerted_at : Option Nat
  deriving Repr, DecidableEq

/-- Alert delivery status; alerts are created in `pending` status. -/
inductive AlertStatus where
  | pending
  | sent
  | failed
  deriving Repr, DecidableEq

/-- An alert links the triggering snapshot and carries the target and
triggered prices (both minor units). -/
structure Alert where
  snapshot : PriceSnapshot
  target_price : Int
  triggered_price : Int
  status : AlertStatus
  deriving Repr, DecidableEq

/-! ## AlertEvaluator

Modelled from the spec: the repository contains no alert-evaluation code
(the Feature 5 plan defers it: "No alert logic in Feature 5. Feature 6
adds threshold comparison + notification dispatch."), so `evaluate` is
modelled from spec section 4.6: select the minimum price among the
snapshots (ties first-seen); if `minPrice < watch.target_price` and the
cooldown has elapsed (`last_alerted_at IS NULL OR last_alerted_at +
cooldown <= now`), create a pending Alert referencing the cheapest
snapshot and set `last_alerted_at = now`; otherwise return nothing.
-/

/-- First-seen minimum-price snapshot of a list (none for the empty list). -/
def minSnapshot : List PriceSnapshot → Option PriceSnapshot
  | [] => none
  | s :: rest =>
    match minSnapshot rest with
    | none => some s
    | some m => if s.price ≤ m.price then some s else some m

/-- Modelled from the spec: cooldown has elapsed when `last_alerted_at IS
NULL OR last_alerted_at + cooldown <= now` (cooldown hours, time in
minutes). -/
def cooldownElapsed (w : PriceWatch) (now : Nat) : Bool :=
  match w.last_alerted_at with
  | none => true
  | some t => t + w.alert_cooldown_hours * 60 ≤ now

/-- Modelled from the spec: `AlertEvaluator.evaluate(watch, snapshots)`.
Returns the optional alert together with the updated watch. -/
def evaluate (w : PriceWatch) (snaps : List PriceSnapshot) (now : Nat) :
    Option Alert × PriceWatch :=
  match minSnapshot snaps with
  | none => (none, w)
  | some m =>
    if m.price < w.target_price ∧ cooldownElapsed w now = true then
      (some { snapshot := m, target_price := w.target_price,
              triggered_price := m.price, status := AlertStatus.pending },
       { w with last_alerted_at := some now })
    else
      (none, w)

/-- `s` is the first-seen minimum of `l`: it occurs in `l`, its price is a
lower bound for `l`, and every element strictly before its occurrence is
strictly more expensive. -/
def IsFirstSeenMin (s : PriceSnapshot) (l : List PriceSnapshot) : Prop :=
  (∀ t ∈ l, s.price ≤ t.price) ∧
  ∃ pre post, l = pre ++ s :: post ∧ ∀ t ∈ pre, s.price < t.price

/-! ## DueWatchSelector

Modelled from the spec: the backend `PriceWatchService.get_due_watches`
exists in the repository only as a plan-document signature
(`src/unnamed/part_012`, Step A3) — get all active watches whose
`last_checked_at` is NULL or whose interval has elapsed.  The spec states
the due condition as `is_active = true AND (last_checked_at IS NULL OR
last_checked_at + re-check interval <= now)`.
-/

/-- Modelled from the spec: a watch is due when `is_active = true` and
(`last_checked_at IS NULL` or `last_checked_at + re-check interval <=
now`). -/
def isDue (now : Nat) (w : PriceWatch) : Bool :=
  w.is_active &&
    (match w.last_checked_at with
     | none => true
     | some t => t + w.check_interval_minutes ≤ now)

/-- Modelled from the spec: `get_due_watches` — the system-level query
returning every due watch (no user filter, no side effects). -/
def get_due_watches (now : Nat) (watches : List PriceWatch) : List PriceWatch :=
  watches.filter (isDue now)

/-! ## The scheduler tick (`_scrape_due_watches_async`)

Embedded from the complete function body in `src/unnamed/part_012`
(Step B5): select due watches, loop over them — on success persist the
scrape result and `mark_checked`, on any exception log and count a
failure — and return the `{total, succeeded, failed}` summary.  The
scrape itself (`ScraperService.scrape_trip`, which persists one
PriceSnapshot per PriceResult on success and raises on failure) is a
parameter, keyed by watch id.
-/

/-- A persisted watch row: an id plus the watch fields. -/
structure WatchRow where
  wid : Nat
  watch : PriceWatch
  deriving Repr, DecidableEq

/-- `mark_checked` (plan Step A3): set `last_checked_at = now` on the row
with the given id. -/
def mark_checked (now : Nat) (wid : Nat) (rows : List WatchRow) : List WatchRow :=
  rows.map fun r =>
    if r.wid = wid then { r with watch := { r.watch with last_checked_at := some now } }
    else r

/-- Database state seen by the worker: watch rows plus stored snapshots,
each snapshot tagged with the id of the watch it was scraped for. -/
structure Db where
  rows : List WatchRow
  snapshots : List (Nat × PriceSnapshot)
  deriving Repr, DecidableEq

/-- The summary dict `{total, succeeded, failed}` returned by the tick. -/
structure TickSummary where
  total : Nat
  succeeded : Nat
  failed : Nat
  deriving Repr, DecidableEq

/-- One iteration of the per-watch loop body of
`_scrape_due_watches_async`: `try: scrape_trip(...); mark_checked(...);
succeeded += 1  except: failed += 1`.  On success the snapshots are
persisted and the watch is marked checked; on an exception nothing is
written and only the failure counter advances. -/
def tickStep (scrape : Nat → Except String (List PriceSnapshot)) (now : Nat)
    (st : Db × Nat × Nat) (r : WatchRow) : Db × Nat × Nat :=
  match scrape r.wid with
  | Except.ok snaps =>
    ({ rows := mark_checked now r.wid st.1.rows,
       snapshots := st.1.snapshots ++ snaps.map (fun s => (r.wid, s)) },
     st.2.1 + 1, st.2.2)
  | Except.error _ => (st.1, st.2.1, st.2.2 + 1)

/-- `_scrape_due_watches_async` from the plan document: query the due
watches, fold the per-watch loop over them, and return the summary. -/
def scrape_due_watches (scrape : Nat → Except String (List PriceSnapshot))
    (now : Nat) (db : Db) : Db × TickSummary :=
  let due := db.rows.filter (fun r => isDue now r.watch)
  let res := due.foldl (tickStep scrape now) (db, 0, 0)
  (res.1, { total := due.length, succeeded := res.2.1, failed := res.2.2 })

/-- Whether the parametrised scrape succeeds for a row. -/
def scrapeOk (scrape : Nat → Except String (List PriceSnapshot)) (r : WatchRow) : Bool :=
  match scrape r.wid with
  | Except.ok _ => true
  | Except.error _ => false

/-- The snapshots the tick persists for one row. -/
def rowSnapshots (scrape : Nat → Except String (List PriceSnapshot))
    (r : WatchRow) : List (Nat × PriceSnapshot) :=
  match scrape r.wid with
  | Except.ok snaps => snaps.map (fun s => (r.wid, s))
  | Except.error _ => []

/-! ## RetryExecutor

Modelled from the spec: `BaseScraper._retry_with_backoff` exists in the
repository only as a signature in the Feature 4 plan
(`src/unnamed/part_033`): "Exponential backoff retry (max 3 retries,
configurable)" with class attributes `max_retries = 3`, `base_delay =
1.0`.  The loop is modelled from spec section 4.2: up to `maxRetries`
retries, delay before retry `k` (k ≥ 1) is `baseDelay * 2 ^ (k - 1)`,
and exhaustion returns the last failure as a value.
-/

/-- RetryExecutor configuration `{maxRetries, baseDelay}` (delay in
seconds). -/
structure RetryConfig where
  maxRetries : Nat
  baseDelay : Nat
  deriving Repr, DecidableEq

/-- Modelled from the spec: the retry loop.  `op` gives the outcome of
each attempt (0-indexed); the last argument counts the retries still
allowed.  Returns the final result, the number of attempts performed,
and the list of backoff delays slept between attempts. -/
def retryGo {E A : Type} (op : Nat → Except E A) (base : Nat)
    (attempt : Nat) : Nat → Except E A × Nat × List Nat
  | 0 =>
    match op attempt with
    | Except.ok a => (Except.ok a, 1, [])
    | Except.error e => (Except.error e, 1, [])
  | r + 1 =>
    match op attempt with
    | Except.ok a => (Except.ok a, 1, [])
    | Except.error _ =>
      let res := retryGo op base (attempt + 1) r
      (res.1, res.2.1 + 1, base * 2 ^ attempt :: res.2.2)

/-- Modelled from the spec: `RetryExecutor.run(operation)`. -/
def retryRun {E A : Type} (cfg : RetryConfig) (op : Nat → Except E A) :
    Except E A × Nat × List Nat :=
  retryGo op cfg.baseDelay 0 cfg.maxRetries

/-! ## RateLimiter

Modelled from the spec: `BaseScraper._check_rate_limit` exists in the
repository only as a signature in the Feature 4 plan
(`src/unnamed/part_033`): "Per-provider rate limiting via Redis
(optional, graceful if Redis unavailable)", attributes
`rate_limit_requests = 10`, `rate_limit_window = 60`.  Modelled from
spec section 4.1: at most N requests per provider per window; if the
counter store is unavailable the limiter fails open.
-/

/-- Modelled from the spec: one `allow(provider)` call against the
per-provider fixed-window counter.  `none` models an unavailable counter
store; the call is then allowed (fail open).  An allowed call with the
store reachable increments the counter; a denied call leaves it
unchanged. -/
def rateLimitAllow (limit : Nat) (store : Option Nat) : Bool × Option Nat :=
  match store with
  | none => (true, none)
  | some count =>
    if count < limit then (true, some (count + 1)) else (false, some count)

/-- Number of allowed requests among `n` consecutive requests inside one
window, starting from the given counter state. -/
def allowedCount (limit : Nat) : Nat → Option Nat → Nat
  | 0, _ => 0
  | n + 1, store =>
    let res := rateLimitAllow limit store
    (if res.1 then 1 else 0) + allowedCount limit n res.2

/-! ## Watch-creation validation and submission (web client)

Embedded from `src/frontend/src/lib/validators.ts`
(`priceWatchCreateSchema`) and the submit handler of
`WatchForm` (`src/unnamed/part_018`).  JS numbers coming out of the form
are modelled as exact rationals; an optional field is `none` when the
key is absent from the parsed object, in which case the zod `.default()`
value applies.
-/

/-- Raw input to `priceWatchCreateSchema.safeParse` after JS number
coercion. -/
structure PriceWatchCreateInput where
  trip_id : String
  provider : Option String
  target_price : ℚ
  currency : Option String
  alert_cooldown_hours : Option ℚ
  deriving Repr, DecidableEq

/-- Data produced by a successful parse. -/
structure PriceWatchCreateData where
  trip_id : String
  provider : String
  target_price : ℚ
  currency : String
  alert_cooldown_hours : ℚ
  deriving Repr, DecidableEq

/-- The zod schema from `validators.ts`: `trip_id` min length 1,
`provider` default "google_flights", `target_price` a positive number,
`currency` length 3 default "USD", `alert_cooldown_hours` an integer
between 1 and 168 default 6. -/
def priceWatchCreateSchema (f : PriceWatchCreateInput) : Option PriceWatchCreateData :=
  let provider := f.provider.getD "google_flights"
  let currency := f.currency.getD "USD"
  let cooldown := f.alert_cooldown_hours.getD 6
  if 1 ≤ f.trip_id.length ∧ 0 < f.target_price ∧ currency.length = 3 ∧
      cooldown.den = 1 ∧ 1 ≤ cooldown ∧ cooldown ≤ 168 then
    some { trip_id := f.trip_id, provider := provider,
           target_price := f.target_price, currency := currency,
           alert_cooldown_hours := cooldown }
  else
    none

/-- JS `Math.round`: round half toward positive infinity. -/
def jsRound (q : ℚ) : ℤ := Int.floor (q + 1 / 2)

/-- The payload `WatchForm.handleSubmit` sends to the API: the parsed
data with `target_price` converted from dollars to integer cents. -/
structure WatchCreatePayload where
  trip_id : String
  provider : String
  target_price : ℤ
  currency : String
  alert_cooldown_hours : ℚ
  deriving Repr, DecidableEq

/-- `WatchForm.handleSubmit` (`src/unnamed/part_018`): validate the form
fields through `priceWatchCreateSchema` (no currency field in the form),
abort on validation failure, otherwise send the parsed data with
`target_price: Math.round(result.data.target_price * 100)`. -/
def handleSubmit (tripId : String) (target_price : ℚ)
    (provider : Option String) (alert_cooldown_hours : Option ℚ) :
    Option WatchCreatePayload :=
  match priceWatchCreateSchema
      { trip_id := tripId, provider := provider, target_price := target_price,
        currency := none, alert_cooldown_hours := alert_cooldown_hours } with
  | none => none
  | some d =>
    some { trip_id := d.trip_id, provider := d.provider,
           target_price := jsRound (d.target_price * 100),
           currency := d.currency, alert_cooldown_hours := d.alert_cooldown_hours }

/-! ## Chart aggregation (`aggregateSnapshots`)

Embedded from `src/unnamed/part_029` (the frontend `lib/utils`
module).  Timestamps are ISO-8601 strings; `new Date(iso).getTime()` is
modelled for "YYYY-MM-DDTHH:MM[:SS]" strings read as UTC (fractional
seconds and zone suffixes are ignored; every timestamp in one chart
shares the same format, so ordering is unaffected).
-/

/-- Input snapshot shape used by the chart helper. -/
structure SnapIn where
  scraped_at : String
  price : Int
  deriving Repr, DecidableEq

/-- `s.scraped_at.slice(0, 16)`: the minute-level key
"YYYY-MM-DDTHH:MM" (first 16 characters). -/
def minuteKey (s : String) : String := String.mk (s.toList.take 16)

/-- One entry of the insertion-ordered `groups` map: the minute key, the
pushed prices, and the full timestamp of the first snapshot seen for the
key. -/
structure SnapGroup where
  key : String
  prices : List Int
  scraped_at : String
  deriving Repr, DecidableEq

/-- One pass of the grouping loop: push onto the existing group for the
key, else append a new group (JS `Map` preserves insertion order). -/
def insertSnap (gs : List SnapGroup) (s : SnapIn) : List SnapGroup :=
  if gs.any (fun g => g.key = minuteKey s.scraped_at) then
    gs.map fun g =>
      if g.key = minuteKey s.scraped_at then { g with prices := g.prices ++ [s.price] }
      else g
  else
    gs ++ [{ key := minuteKey s.scraped_at, prices := [s.price],
             scraped_at := s.scraped_at }]

/-- The `groups` map after the loop over all snapshots. -/
def buildGroups (snaps : List SnapIn) : List SnapGroup :=
  snaps.foldl insertSnap []

/-- The group freshly appended for a snapshot whose key is new. -/
def newGroup (x : SnapIn) : SnapGroup :=
  { key := minuteKey x.scraped_at, prices := [x.price], scraped_at := x.scraped_at }

/-- `Math.min(...prices)` on a nonempty list (groups are never empty;
the empty case is junk). -/
def listMin : List Int → Int
  | [] => 0
  | a :: rest => rest.foldl min a

/-- `Math.max(...prices)` on a nonempty list. -/
def listMax : List Int → Int
  | [] => 0
  | a :: rest => rest.foldl max a

/-- Numeric value of the digit at index `i` of the string, 0 when the
index is out of range. -/
def digitAt (s : String) (i : Nat) : Nat := (s.toList.getD i '0').toNat - 48

/-- Two-digit field starting at index `i`. -/
def field2 (s : String) (i : Nat) : Nat := 10 * digitAt s i + digitAt s (i + 1)

/-- Four-digit field starting at index `i`. -/
def field4 (s : String) (i : Nat) : Nat :=
  1000 * digitAt s i + 100 * digitAt s (i + 1) + 10 * digitAt s (i + 2) + digitAt s (i + 3)

/-- Days since 1970-01-01 of a Gregorian civil date (valid from year 400
on, which covers every timestamp the application handles). -/
def daysFromCivil (y m d : Nat) : Int :=
  let y2 := if m ≤ 2 then y - 1 else y
  let era := y2 / 400
  let yoe := y2 % 400
  let mp := if m ≤ 2 then m + 9 else m - 3
  let doy := (153 * mp + 2) / 5 + (d - 1)
  let doe := yoe * 365 + yoe / 4 - yoe / 100 + doy
  (era : Int) * 146097 + (doe : Int) - 719468

/-- `new Date(iso).getTime()` for "YYYY-MM-DDTHH:MM[:SS]" read as UTC:
milliseconds since the epoch. -/
def jsDateTime (s : String) : Int :=
  let days := daysFromCivil (field4 s 0) (field2 s 5) (field2 s 8)
  (((days * 24 + (field2 s 11 : Int)) * 60 + (field2 s 14 : Int)) * 60
    + (field2 s 17 : Int)) * 1000

/-- en-US short month name, as produced by `toLocaleDateString` with
\x7bmonth: "short"\x7d. -/
def shortMonthName : Nat → String
  | 1 => "Jan"
  | 2 => "Feb"
  | 3 => "Mar"
  | 4 => "Apr"
  | 5 => "May"
  | 6 => "Jun"
  | 7 => "Jul"
  | 8 => "Aug"
  | 9 => "Sep"
  | 10 => "Oct"
  | 11 => "Nov"
  | 12 => "Dec"
  | _ => ""

/-- `toLocaleDateString("en-US", \x7bmonth: "short", day: "numeric"\x7d)`
of the group timestamp. -/
def shortDate (iso : String) : String :=
  shortMonthName (field2 iso 5) ++ " " ++ toString (field2 iso 8)

/-- The point type returned by `aggregateSnapshots`. -/
structure AggregatedPricePoint where
  date : String
  fullDate : String
  min : ℚ
  max : ℚ
  avg : ℚ
  count : Nat
  deriving Repr, DecidableEq

/-- The point built for one group: min, rounded mean, and max of the
group prices, each divided by 100, plus the group size. -/
def toPoint (g : SnapGroup) : AggregatedPricePoint :=
  { date := shortDate g.scraped_at
    fullDate := g.scraped_at
    min := (listMin g.prices : ℚ) / 100
    max := (listMax g.prices : ℚ) / 100
    avg := (jsRound (((g.prices.foldl (fun a b => a + b) 0 : Int) : ℚ) / (g.prices.length : ℚ)) : ℚ) / 100
    count := g.prices.length }

/-- The sort comparator `(a, b) => Date(a.fullDate) - Date(b.fullDate)`
of the final `points.sort`. -/
def pointLE (p q : AggregatedPricePoint) : Bool :=
  jsDateTime p.fullDate ≤ jsDateTime q.fullDate

/-- `aggregateSnapshots` from `src/unnamed/part_029`: group by
minute-level key, map each group to an aggregated point, sort by
timestamp ascending. -/
def aggregateSnapshots (snaps : List SnapIn) : List AggregatedPricePoint :=
  if snaps.isEmpty then []
  else ((buildGroups snaps).map toPoint).mergeSort pointLE

/-- Invariant tying the group list to the snapshot list it was built
from: each group carries exactly the prices of the snapshots with its
key in order, keys are distinct, every snapshot key has a group, and
each group timestamp comes from a snapshot with its key. -/
def GroupsOf (snaps : List SnapIn) (gs : List SnapGroup) : Prop :=
  (∀ g ∈ gs,
      g.prices = (snaps.filter (fun s => minuteKey s.scraped_at = g.key)).map SnapIn.price) ∧
  (gs.map SnapGroup.key).Nodup ∧
  (∀ s ∈ snaps, minuteKey s.scraped_at ∈ gs.map SnapGroup.key) ∧
  (∀ g ∈ gs, ∃ s ∈ snaps, s.scraped_at = g.scraped_at ∧ minuteKey s.scraped_at = g.key)

/-! ## Concrete instances used by witnesses -/

/-- The spec section 8 scenario watch: target 25000 cents, 6 h cooldown,
never alerted. -/
def watchA : PriceWatch :=
  { is_active := true, target_price := 25000, check_interval_minutes := 360,
    alert_cooldown_hours := 6, last_checked_at := none, last_alerted_at := none }

/-- The spec section 8 scenario snapshots: prices 26000, 24000, 27000. -/
def snapsA : List PriceSnapshot := [⟨1, 26000⟩, ⟨2, 24000⟩, ⟨3, 27000⟩]

/-- A watch alerted at minute 500 with a 6 h cooldown. -/
def watchB : PriceWatch :=
  { is_active := true, target_price := 25000, check_interval_minutes := 360,
    alert_cooldown_hours := 6, last_checked_at := none, last_alerted_at := some 500 }

/-- A single active, never-checked watch row. -/
def failRow : WatchRow := ⟨1, watchA⟩

/-- A scrape that always raises. -/
def failScrape : Nat → Except String (List PriceSnapshot) :=
  fun _ => Except.error "scrape failed"

/-- Three chart snapshots: two in minute 2026-02-12T15:30, one in the
following minute. -/
def snaps0 : List SnapIn :=
  [⟨"2026-02-12T15:30:10Z", 26000⟩, ⟨"2026-02-12T15:30:40Z", 24000⟩,
   ⟨"2026-02-12T15:31:05Z", 27000⟩]

/-- The first group built from `snaps0`. -/
def group0 : SnapGroup :=
  { key := "2026-02-12T15:30", prices := [26000, 24000],
    scraped_at := "2026-02-12T15:30:10Z" }

/-- The second group built from `snaps0`. -/
def group1 : SnapGroup :=
  { key := "2026-02-12T15:31", prices := [27000],
    scraped_at := "2026-02-12T15:31:05Z" }

/-! ## Theorems -/

theorem minSnapshot_cons_isSome (a : PriceSnapshot) (l : List PriceSnapshot) :
    (minSnapshot (a :: l)).isSome := by
  simp only [minSnapshot]
  cases minSnapshot l with
  | none => rfl
  | some m => by_cases h : a.price ≤ m.price <;> simp [h]

theorem minSnapshot_firstSeen :
    ∀ (l : List PriceSnapshot) (m : PriceSnapshot),
      minSnapshot l = some m → IsFirstSeenMin m l := by
  intro l
  induction l with
  | nil => intro m h; simp [minSnapshot] at h
  | cons s rest ih =>
    intro m h
    simp only [minSnapshot] at h
    cases hrest : minSnapshot rest with
    | none =>
      rw [hrest] at h
      cases h
      cases rest with
      | nil =>
        refine ⟨by simp, [], [], by simp, by simp⟩
      | cons a t =>
        have hs := minSnapshot_cons_isSome a t
        rw [hrest] at hs
        simp at hs
    | some m0 =>
      rw [hrest] at h
      obtain ⟨hlb, pre, post, hsplit, hpre⟩ := ih m0 hrest
      by_cases hle : s.price ≤ m0.price
      · simp only [hle, if_pos] at h
        cases h
        refine ⟨?_, [], rest, by simp, by simp⟩
        intro t ht
        rcases List.mem_cons.mp ht with h1 | h2
        · exact h1 ▸ le_refl _
        · exact le_trans hle (hlb t h2)
      · simp only [hle, if_neg, not_false_iff] at h
        cases h
        push_neg at hle
        refine ⟨?_, s :: pre, post, by simp [hsplit], ?_⟩
        · intro t ht
          rcases List.mem_cons.mp ht with h1 | h2
          · exact h1 ▸ le_of_lt hle
          · exact hlb t h2
        · intro t ht
          rcases List.mem_cons.mp ht with h1 | h2
          · exact h1 ▸ hle
          · exact hpre t h2

theorem isDue_eq_true_iff (now : Nat) (w : PriceWatch) :
    isDue now w = true ↔
      w.is_active = true ∧
        (w.last_checked_at = none ∨
          ∃ t, w.last_checked_at = some t ∧ t + w.check_interval_minutes ≤ now) := by
  unfold isDue
  cases hl : w.last_checked_at with
  | none => simp [hl]
  | some t => simp [hl]

theorem tickLoop_spec (scrape : Nat → Except String (List PriceSnapshot)) (now : Nat) :
    ∀ (due : List WatchRow) (db : Db) (s f : Nat),
      (due.foldl (tickStep scrape now) (db, s, f)).2.1 =
          s + due.countP (scrapeOk scrape) ∧
      (due.foldl (tickStep scrape now) (db, s, f)).2.2 =
          f + due.countP (fun r => !scrapeOk scrape r) ∧
      (due.foldl (tickStep scrape now) (db, s, f)).1.snapshots =
          db.snapshots ++ due.flatMap (rowSnapshots scrape) := by
  intro due
  induction due with
  | nil => intro db s f; simp
  | cons r rest ih =>
    intro db s f
    simp only [List.foldl_cons, List.countP_cons, List.flatMap_cons]
    cases hr : scrape r.wid with
    | ok snaps =>
      have h1 : tickStep scrape now (db, s, f) r =
          ({ rows := mark_checked now r.wid db.rows,
             snapshots := db.snapshots ++ snaps.map (fun x => (r.wid, x)) }, s + 1, f) := by
        simp [tickStep, hr]
      have hok : scrapeOk scrape r = true := by simp [scrapeOk, hr]
      have hsnap : rowSnapshots scrape r = snaps.map (fun x => (r.wid, x)) := by
        simp [rowSnapshots, hr]
      rw [h1]
      obtain ⟨i1, i2, i3⟩ := ih
        { rows := mark_checked now r.wid db.rows,
          snapshots := db.snapshots ++ snaps.map (fun x => (r.wid, x)) } (s + 1) f
      refine ⟨?_, ?_, ?_⟩
      · rw [i1]; simp [hok]; omega
      · rw [i2]; simp [hok]
      · rw [i3]; simp [hsnap]
    | error e =>
      have h1 : tickStep scrape now (db, s, f) r = (db, s, f + 1) := by
        simp [tickStep, hr]
      have hok : scrapeOk scrape r = false := by simp [scrapeOk, hr]
      have hsnap : rowSnapshots scrape r = [] := by simp [rowSnapshots, hr]
      rw [h1]
      obtain ⟨i1, i2, i3⟩ := ih db s (f + 1)
      refine ⟨?_, ?_, ?_⟩
      · rw [i1]; simp [hok]
      · rw [i2]; simp [hok]; omega
      · rw [i3]; simp [hsnap]

theorem retryGo_attempts_le {E A : Type} (op : Nat → Except E A) (base : Nat) :
    ∀ (r attempt : Nat), (retryGo op base attempt r).2.1 ≤ r + 1 := by
  intro r
  induction r with
  | zero =>
    intro attempt
    cases h : op attempt <;> simp [retryGo, h]
  | succ r ih =>
    intro attempt
    cases h : op attempt with
    | ok a => simp [retryGo, h]
    | error e =>
      simp only [retryGo, h]
      have := ih (attempt + 1)
      omega

theorem retryGo_attempts_pos {E A : Type} (op : Nat → Except E A) (base : Nat) :
    ∀ (r attempt : Nat), 1 ≤ (retryGo op base attempt r).2.1 := by
  intro r
  induction r with
  | zero => intro attempt; cases h : op attempt <;> simp [retryGo, h]
  | succ r ih =>
    intro attempt
    cases h : op attempt with
    | ok a => simp [retryGo, h]
    | error e => simp only [retryGo, h]; omega

theorem retryGo_delays {E A : Type} (op : Nat → Except E A) (base : Nat) :
    ∀ (r attempt : Nat),
      (retryGo op base attempt r).2.2 =
        (List.range ((retryGo op base attempt r).2.1 - 1)).map
          (fun i => base * 2 ^ (attempt + i)) := by
  intro r
  induction r with
  | zero => intro attempt; cases h : op attempt <;> simp [retryGo, h]
  | succ r ih =>
    intro attempt
    cases h : op attempt with
    | ok a => simp [retryGo, h]
    | error e =>
      simp only [retryGo, h, Nat.add_sub_cancel]
      have hpos := retryGo_attempts_pos op base r (attempt + 1)
      obtain ⟨n, hn⟩ : ∃ n, (retryGo op base (attempt + 1) r).2.1 = n + 1 :=
        ⟨(retryGo op base (attempt + 1) r).2.1 - 1, by omega⟩
      rw [ih (attempt + 1), hn]
      simp only [Nat.add_sub_cancel, List.range_succ_eq_map, List.map_cons, List.map_map]
      refine List.cons_eq_cons.mpr ⟨by simp, ?_⟩
      apply List.map_congr_left
      intro i _
      have h3 : attempt + (i + 1) = attempt + 1 + i := by omega
      simp only [Function.comp_apply, Nat.succ_eq_add_one, h3]

theorem retryGo_always_fails {E : Type} (f : Nat → E) (base : Nat) :
    ∀ (r attempt : Nat),
      (retryGo (fun i => (Except.error (f i) : Except E Unit)) base attempt r).1 =
          Except.error (f (attempt + r)) ∧
      (retryGo (fun i => (Except.error (f i) : Except E Unit)) base attempt r).2.1 =
          r + 1 := by
  intro r
  induction r with
  | zero => intro attempt; simp [retryGo]
  | succ r ih =>
    intro attempt
    obtain ⟨ih1, ih2⟩ := ih (attempt + 1)
    refine ⟨?_, ?_⟩
    · simp only [retryGo]
      rw [ih1]
      congr 2
      omega
    · simp only [retryGo]
      omega

theorem allowedCount_store_eq (limit : Nat) :
    ∀ (n c : Nat), allowedCount limit n (some c) = min n (limit - c) := by
  intro n
  induction n with
  | zero => intro c; simp [allowedCount]
  | succ n ih =>
    intro c
    by_cases h : c < limit
    · have ha : rateLimitAllow limit (some c) = (true, some (c + 1)) := by
        simp [rateLimitAllow, h]
      simp only [allowedCount, ha]
      rw [ih (c + 1)]
      simp only [if_true]
      omega
    · have ha : rateLimitAllow limit (some c) = (false, some c) := by
        simp [rateLimitAllow, h]
      simp only [allowedCount, ha]
      rw [ih c]
      simp only [Bool.false_eq_true, if_false]
      omega

theorem allowedCount_none (limit : Nat) :
    ∀ (n : Nat), allowedCount limit n none = n := by
  intro n
  induction n with
  | zero => simp [allowedCount]
  | succ n ih => simp [allowedCount, rateLimitAllow, ih]; omega

/-- C1: `AlertEvaluator.evaluate(watch, snapshots)` returns an Alert only
if the minimum snapshot price is strictly below `watch.target_price`;
whenever the minimum price is at or above the target it returns nothing
regardless of cooldown state; and a returned Alert references the
first-seen minimum-price snapshot. -/
theorem evaluate_alert_iff_min_below_target
    (w : PriceWatch) (snaps : List PriceSnapshot) (now : Nat) :
    (∀ a, (evaluate w snaps now).1 = some a →
        minSnapshot snaps = some a.snapshot ∧
        a.snapshot.price < w.target_price ∧
        IsFirstSeenMin a.snapshot snaps) ∧
    (∀ m, minSnapshot snaps = some m → w.target_price ≤ m.price →
        (evaluate w snaps now).1 = none) := by
  constructor
  · intro a ha
    cases hm : minSnapshot snaps with
    | none =>
      have hev : evaluate w snaps now = (none, w) := by
        unfold evaluate; rw [hm]
      rw [hev] at ha
      simp at ha
    | some m =>
      have hev : evaluate w snaps now
          = if m.price < w.target_price ∧ cooldownElapsed w now = true then
              (some { snapshot := m, target_price := w.target_price,
                      triggered_price := m.price, status := AlertStatus.pending },
               { w with last_alerted_at := some now })
            else (none, w) := by
        unfold evaluate; rw [hm]
      rw [hev] at ha
      by_cases hc : m.price < w.target_price ∧ cooldownElapsed w now = true
      · rw [if_pos hc] at ha
        injection ha with ha
        subst ha
        exact ⟨rfl, hc.1, minSnapshot_firstSeen snaps m hm⟩
      · rw [if_neg hc] at ha
        simp at ha
  · intro m hm hge
    have hev : evaluate w snaps now
        = if m.price < w.target_price ∧ cooldownElapsed w now = true then
            (some { snapshot := m, target_price := w.target_price,
                    triggered_price := m.price, status := AlertStatus.pending },
             { w with last_alerted_at := some now })
          else (none, w) := by
      unfold evaluate; rw [hm]
    rw [hev, if_neg]
    intro hcon
    exact absurd hcon.1 (not_lt.mpr hge)

/-- C1 witness: the spec section 8 scenario (target 25000, prices
[26000, 24000, 27000]) produces an alert referencing the 24000
snapshot, which is the first-seen minimum and below target. -/
theorem evaluate_alert_iff_min_below_target_witness :
    minSnapshot snapsA = some ⟨2, 24000⟩ ∧
    (⟨2, 24000⟩ : PriceSnapshot).price < watchA.target_price ∧
    IsFirstSeenMin ⟨2, 24000⟩ snapsA :=
  (evaluate_alert_iff_min_below_target watchA snapsA 1000).1
    { snapshot := ⟨2, 24000⟩, target_price := 25000, triggered_price := 24000,
      status := AlertStatus.pending }
    (by decide)

/-- C2: with `last_alerted_at` set, evaluating again strictly before
`last_alerted_at + cooldown` returns no Alert, whatever the snapshot
prices are. -/
theorem evaluate_no_alert_within_cooldown
    (w : PriceWatch) (t now : Nat) (snaps : List PriceSnapshot)
    (h1 : w.last_alerted_at = some t)
    (h2 : now < t + w.alert_cooldown_hours * 60) :
    (evaluate w snaps now).1 = none := by
  have hc : cooldownElapsed w now = false := by
    unfold cooldownElapsed
    rw [h1]
    simp only [decide_eq_false_iff_not]
    omega
  cases hm : minSnapshot snaps with
  | none =>
    have hev : evaluate w snaps now = (none, w) := by
      unfold evaluate; rw [hm]
    rw [hev]
  | some m =>
    have hev : evaluate w snaps now
        = if m.price < w.target_price ∧ cooldownElapsed w now = true then
            (some { snapshot := m, target_price := w.target_price,
                    triggered_price := m.price, status := AlertStatus.pending },
             { w with last_alerted_at := some now })
          else (none, w) := by
      unfold evaluate; rw [hm]
    rw [hev, if_neg]
    intro hcon
    exact Bool.false_ne_true (hc ▸ hcon.2)

/-- C2 witness: a watch alerted at minute 500 with a 6 h cooldown,
re-evaluated at minute 600 on a price far below target, returns no
alert. -/
theorem evaluate_no_alert_within_cooldown_witness :
    (evaluate watchB [⟨4, 20000⟩] 600).1 = none :=
  evaluate_no_alert_within_cooldown watchB 500 600 [⟨4, 20000⟩] rfl (by decide)

/-- C3: the due-watch selection returns a watch exactly when it is
active and never checked or checked at least one interval ago; in
particular it never returns an inactive watch, never returns a watch
whose `last_checked_at + interval > now`, and always returns a
never-checked active watch. -/
theorem get_due_watches_mem_iff (now : Nat) (ws : List PriceWatch) (w : PriceWatch) :
    w ∈ get_due_watches now ws ↔
      w ∈ ws ∧ w.is_active = true ∧
        (w.last_checked_at = none ∨
          ∃ t, w.last_checked_at = some t ∧ t + w.check_interval_minutes ≤ now) := by
  unfold get_due_watches
  rw [List.mem_filter, isDue_eq_true_iff]

/-- C3 witness: a never-checked active watch is selected already at
`now = 0`. -/
theorem get_due_watches_mem_iff_witness :
    watchA ∈ get_due_watches 0 [watchA] :=
  (get_due_watches_mem_iff 0 [watchA] watchA).mpr
    ⟨by decide, by decide, Or.inl rfl⟩

/-- C4: evaluating the embedded tick on a single due watch whose scrape
raises: the summary is (total 1, succeeded 0, failed 1) and no snapshot
is stored, but `last_checked_at` is NOT advanced — the loop body of
`_scrape_due_watches_async` calls `mark_checked` only on the success
path, so the row is returned unchanged. -/
theorem scrape_failure_leaves_watch_unchecked :
    (scrape_due_watches failScrape 1000 { rows := [failRow], snapshots := [] }).1.rows
        = [failRow] ∧
    failRow.watch.last_checked_at = none ∧
    (scrape_due_watches failScrape 1000 { rows := [failRow], snapshots := [] }).1.snapshots
        = [] ∧
    (scrape_due_watches failScrape 1000 { rows := [failRow], snapshots := [] }).2
        = { total := 1, succeeded := 0, failed := 1 } :=
  ⟨rfl, rfl, rfl, rfl⟩

/-- C5: for every batch, the tick isolates failures: the summary total is
the number of due watches, succeeded + failed = total, succeeded counts
exactly the due watches whose scrape succeeded, and every successful
watch has its snapshots persisted regardless of other watches failing. -/
theorem scrape_due_watches_summary
    (scrape : Nat → Except String (List PriceSnapshot)) (now : Nat) (db : Db) :
    (scrape_due_watches scrape now db).2.total
        = (db.rows.filter (fun r => isDue now r.watch)).length ∧
    (scrape_due_watches scrape now db).2.succeeded
          + (scrape_due_watches scrape now db).2.failed
        = (scrape_due_watches scrape now db).2.total ∧
    (scrape_due_watches scrape now db).2.succeeded
        = ((db.rows.filter (fun r => isDue now r.watch)).filter (scrapeOk scrape)).length ∧
    (scrape_due_watches scrape now db).1.snapshots
        = db.snapshots
            ++ (db.rows.filter (fun r => isDue now r.watch)).flatMap (rowSnapshots scrape) := by
  obtain ⟨h1, h2, h3⟩ :=
    tickLoop_spec scrape now (db.rows.filter (fun r => isDue now r.watch)) db 0 0
  have e1 : (scrape_due_watches scrape now db).2.total
      = (db.rows.filter (fun r => isDue now r.watch)).length := rfl
  have e2 : (scrape_due_watches scrape now db).2.succeeded
      = ((db.rows.filter (fun r => isDue now r.watch)).foldl
          (tickStep scrape now) (db, 0, 0)).2.1 := rfl
  have e3 : (scrape_due_watches scrape now db).2.failed
      = ((db.rows.filter (fun r => isDue now r.watch)).foldl
          (tickStep scrape now) (db, 0, 0)).2.2 := rfl
  have e4 : (scrape_due_watches scrape now db).1
      = ((db.rows.filter (fun r => isDue now r.watch)).foldl
          (tickStep scrape now) (db, 0, 0)).1 := rfl
  have hlen : ∀ (l : List WatchRow),
      l.countP (scrapeOk scrape) + l.countP (fun r => !scrapeOk scrape r) = l.length := by
    intro l
    induction l with
    | nil => simp
    | cons r t ih =>
      by_cases h : scrapeOk scrape r <;> simp [List.countP_cons, h] <;> omega
  refine ⟨e1, ?_, ?_, ?_⟩
  · rw [e2, e3, e1, h1, h2]
    have := hlen (db.rows.filter (fun r => isDue now r.watch))
    omega
  · rw [e2, h1, List.countP_eq_length_filter]
    omega
  · rw [e4, h3]

/-- C6: the retry wrapper performs at most `maxRetries + 1` attempts,
the delays slept are `baseDelay * 2 ^ (k - 1)` before retry `k`, and
with `maxRetries = 3`, `baseDelay = 1` an always-failing operation gives
exactly 4 attempts, delays [1, 2, 4], and the last error as a value. -/
theorem retryRun_spec {E A : Type} (cfg : RetryConfig) (op : Nat → Except E A) :
    (retryRun cfg op).2.1 ≤ cfg.maxRetries + 1 ∧
    (retryRun cfg op).2.2
        = (List.range ((retryRun cfg op).2.1 - 1)).map (fun k => cfg.baseDelay * 2 ^ k) ∧
    (∀ f : Nat → E,
        retryRun { maxRetries := 3, baseDelay := 1 }
            (fun i => (Except.error (f i) : Except E Unit))
          = (Except.error (f 3), 4, [1, 2, 4])) := by
  refine ⟨retryGo_attempts_le op cfg.baseDelay cfg.maxRetries 0, ?_, ?_⟩
  · have := retryGo_delays op cfg.baseDelay cfg.maxRetries 0
    simpa using this
  · intro f
    obtain ⟨r1, r2⟩ := retryGo_always_fails f 1 3 0
    have r3 := retryGo_delays (fun i => (Except.error (f i) : Except E Unit)) 1 3 0
    rw [r2] at r3
    have r4 : (retryGo (fun i => (Except.error (f i) : Except E Unit)) 1 0 3).2.2
        = [1, 2, 4] := by
      rw [r3]; decide
    have e0 : retryRun { maxRetries := 3, baseDelay := 1 }
        (fun i => (Except.error (f i) : Except E Unit))
        = retryGo (fun i => (Except.error (f i) : Except E Unit)) 1 0 3 := rfl
    rw [e0]
    refine Prod.ext r1 (Prod.ext r2 r4)

/-- C7 counterexample: the web-client creation schema accepts an alert
cooldown of 100 hours, which is outside the claimed 1–72 hour range
(the schema bound is 168). -/
theorem priceWatchCreateSchema_accepts_cooldown_100 :
    (priceWatchCreateSchema
        { trip_id := "t1", provider := none, target_price := 250,
          currency := none, alert_cooldown_hours := some 100 }).isSome = true ∧
    ¬((100 : ℚ) ≤ 72) := by
  constructor
  · decide
  · norm_num

/-- C7 (amended): the creation schema accepts exactly the inputs with a
nonempty trip id, a strictly positive target price, a 3-letter currency,
and an integer cooldown between 1 and 168 hours; no re-check-interval
field exists in the creation form. -/
theorem priceWatchCreateSchema_accepts_iff (f : PriceWatchCreateInput) :
    (priceWatchCreateSchema f).isSome = true ↔
      (1 ≤ f.trip_id.length ∧ 0 < f.target_price ∧
        (f.currency.getD "USD").length = 3 ∧
        (f.alert_cooldown_hours.getD 6).den = 1 ∧
        1 ≤ f.alert_cooldown_hours.getD 6 ∧ f.alert_cooldown_hours.getD 6 ≤ 168) := by
  simp only [priceWatchCreateSchema]
  split <;> simp_all

/-- C7 witness: a minimal valid input (defaults for provider, currency
and cooldown) is accepted. -/
theorem priceWatchCreateSchema_accepts_iff_witness :
    (priceWatchCreateSchema
        { trip_id := "t1", provider := none, target_price := 250,
          currency := none, alert_cooldown_hours := none }).isSome = true :=
  (priceWatchCreateSchema_accepts_iff
      { trip_id := "t1", provider := none, target_price := 250,
        currency := none, alert_cooldown_hours := none }).mpr (by decide)

/-- C8: with the counter store reachable, at most `limit` of any run of
requests in one window are allowed; with the store unavailable every
request is allowed (fail open). -/
theorem rateLimiter_bounds (limit n : Nat) :
    allowedCount limit n (some 0) ≤ limit ∧
    allowedCount limit n none = n := by
  constructor
  · rw [allowedCount_store_eq]; omega
  · exact allowedCount_none limit n

/-- C10: a successful form submission carries
`Math.round(dollars * 100)` cents as the target price, and omitted
provider / cooldown fields default to "google_flights" and 6 hours. -/
theorem handleSubmit_payload
    (tripId : String) (target : ℚ) (provider : Option String) (cooldown : Option ℚ)
    (p : WatchCreatePayload)
    (h : handleSubmit tripId target provider cooldown = some p) :
    p.target_price = jsRound (target * 100) ∧
    (provider = none → p.provider = "google_flights") ∧
    (cooldown = none → p.alert_cooldown_hours = 6) := by
  unfold handleSubmit at h
  cases hp : priceWatchCreateSchema
      { trip_id := tripId, provider := provider, target_price := target,
        currency := none, alert_cooldown_hours := cooldown } with
  | none => rw [hp] at h; simp at h
  | some d =>
    rw [hp] at h
    injection h with h
    subst h
    simp only [priceWatchCreateSchema] at hp
    split at hp
    · injection hp with hp
      subst hp
      refine ⟨rfl, ?_, ?_⟩
      · intro hprov; subst hprov; rfl
      · intro hcool; subst hcool; rfl
    · simp at hp

/-- C10 witness: a fractional dollar amount (250.555) is accepted, sent
as 25056 cents, and the omitted provider and cooldown take their
defaults. -/
theorem handleSubmit_payload_witness :
    ({ trip_id := "t1", provider := "google_flights", target_price := 25056,
       currency := "USD", alert_cooldown_hours := 6 } : WatchCreatePayload).target_price
        = jsRound ((250.555 : ℚ) * 100) ∧
    ((none : Option String) = none →
      ({ trip_id := "t1", provider := "google_flights", target_price := 25056,
         currency := "USD", alert_cooldown_hours := 6 } : WatchCreatePayload).provider
          = "google_flights") ∧
    ((none : Option ℚ) = none →
      ({ trip_id := "t1", provider := "google_flights", target_price := 25056,
         currency := "USD", alert_cooldown_hours := 6 } : WatchCreatePayload).alert_cooldown_hours
          = 6) :=
  handleSubmit_payload "t1" (250.555 : ℚ) none none
    { trip_id := "t1", provider := "google_flights", target_price := 25056,
      currency := "USD", alert_cooldown_hours := 6 }
    (by
      have hs : priceWatchCreateSchema
          { trip_id := "t1", provider := none, target_price := (250.555 : ℚ),
            currency := none, alert_cooldown_hours := none }
          = some { trip_id := "t1", provider := "google_flights",
                   target_price := (250.555 : ℚ), currency := "USD",
                   alert_cooldown_hours := 6 } := by
        simp only [priceWatchCreateSchema]
        rw [if_pos]
        · rfl
        · exact ⟨by decide, by norm_num, by decide, by decide, by decide, by decide⟩
      have hjr : jsRound ((250.555 : ℚ) * 100) = 25056 := by
        unfold jsRound
        rw [show (250.555 : ℚ) * 100 + 1 / 2 = ((25056 : ℤ) : ℚ) by norm_num]
        exact Int.floor_intCast 25056
      unfold handleSubmit
      rw [hs]
      simp only [hjr])

theorem insertSnap_groupsOf (snaps : List SnapIn) (gs : List SnapGroup) (x : SnapIn)
    (h : GroupsOf snaps gs) : GroupsOf (snaps ++ [x]) (insertSnap gs x) := by
  obtain ⟨h1, h2, h3, h4⟩ := h
  unfold insertSnap
  by_cases hmem : gs.any (fun g => g.key = minuteKey x.scraped_at)
  · rw [if_pos hmem]
    have hkeys : (gs.map fun g =>
        if g.key = minuteKey x.scraped_at then { g with prices := g.prices ++ [x.price] }
        else g).map SnapGroup.key = gs.map SnapGroup.key := by
      rw [List.map_map]
      apply List.map_congr_left
      intro g _
      by_cases hk : g.key = minuteKey x.scraped_at
      · simp [hk]
      · simp [hk]
    refine ⟨?_, ?_, ?_, ?_⟩
    · intro g' hg'
      rw [List.mem_map] at hg'
      obtain ⟨g, hg, heq⟩ := hg'
      by_cases hk : g.key = minuteKey x.scraped_at
      · rw [if_pos hk] at heq
        subst heq
        rw [List.filter_append]
        have hx : [x].filter
            (fun s => minuteKey s.scraped_at
              = ({ g with prices := g.prices ++ [x.price] } : SnapGroup).key) = [x] := by
          simp [hk]
        rw [hx, List.map_append]
        have hkey : ({ g with prices := g.prices ++ [x.price] } : SnapGroup).key = g.key := rfl
        rw [hkey, ← h1 g hg]
        rfl
      · rw [if_neg hk] at heq
        subst heq
        rw [List.filter_append]
        have hx : [x].filter (fun s => minuteKey s.scraped_at = g.key) = [] := by
          simp
          intro hcon
          exact hk hcon.symm
        rw [hx, List.append_nil]
        exact h1 g hg
    · rw [hkeys]; exact h2
    · intro s hs
      rw [hkeys]
      rcases List.mem_append.mp hs with hs | hs
      · exact h3 s hs
      · have hx : s = x := by simpa using hs
        subst hx
        obtain ⟨g, hg, hgk⟩ := List.any_eq_true.mp hmem
        rw [List.mem_map]
        exact ⟨g, hg, by simpa using hgk⟩
    · intro g' hg'
      rw [List.mem_map] at hg'
      obtain ⟨g, hg, heq⟩ := hg'
      obtain ⟨s, hs, hs1, hs2⟩ := h4 g hg
      by_cases hk : g.key = minuteKey x.scraped_at
      · rw [if_pos hk] at heq
        subst heq
        exact ⟨s, List.mem_append_left _ hs, hs1, hs2⟩
      · rw [if_neg hk] at heq
        subst heq
        exact ⟨s, List.mem_append_left _ hs, hs1, hs2⟩
  · rw [if_neg hmem]
    have hnone : ∀ g ∈ gs, ¬(g.key = minuteKey x.scraped_at) := by
      intro g hg hk
      exact hmem (List.any_eq_true.mpr ⟨g, hg, by simpa using hk⟩)
    refine ⟨?_, ?_, ?_, ?_⟩
    · intro g' hg'
      rcases List.mem_append.mp hg' with hg | hg
      · rw [List.filter_append]
        have hx : [x].filter (fun s => minuteKey s.scraped_at = g'.key) = [] := by
          simp
          intro hcon
          exact hnone g' hg hcon.symm
        rw [hx, List.append_nil]
        exact h1 g' hg
      · have hg'' : g' = newGroup x := List.mem_singleton.mp hg
        subst hg''
        rw [List.filter_append]
        have hs0 : snaps.filter (fun s => minuteKey s.scraped_at = (newGroup x).key) = [] := by
          rw [List.filter_eq_nil_iff]
          intro s hs hcon
          have hsk : minuteKey s.scraped_at = minuteKey x.scraped_at := by
            simpa [newGroup] using hcon
          have hmem2 := h3 s hs
          rw [hsk, List.mem_map] at hmem2
          obtain ⟨g, hg2, hgk⟩ := hmem2
          exact hnone g hg2 hgk
        rw [hs0]
        simp [newGroup]
    · rw [List.map_append]
      apply List.Nodup.append h2 (by simp)
      intro a ha hb
      have hb2 : a = minuteKey x.scraped_at := by simpa [newGroup] using hb
      subst hb2
      obtain ⟨g, hg2, hgk⟩ := List.mem_map.mp ha
      exact hnone g hg2 hgk
    · intro s hs
      rw [List.map_append]
      rcases List.mem_append.mp hs with hs | hs
      · exact List.mem_append_left _ (h3 s hs)
      · have hx : s = x := by simpa using hs
        subst hx
        exact List.mem_append_right _ (by simp [newGroup])
    · intro g' hg'
      rcases List.mem_append.mp hg' with hg | hg
      · obtain ⟨s, hs, hs1, hs2⟩ := h4 g' hg
        exact ⟨s, List.mem_append_left _ hs, hs1, hs2⟩
      · have hg'' : g' = newGroup x := List.mem_singleton.mp hg
        subst hg''
        exact ⟨x, List.mem_append_right _ (by simp), rfl, rfl⟩

theorem buildGroups_groupsOf (snaps : List SnapIn) :
    GroupsOf snaps (buildGroups snaps) := by
  induction snaps using List.reverseRecOn with
  | nil =>
    refine ⟨?_, ?_, ?_, ?_⟩ <;> simp [buildGroups]
  | append_singleton l x ih =>
    have hb : buildGroups (l ++ [x]) = insertSnap (buildGroups l) x := by
      simp [buildGroups, List.foldl_append]
    rw [hb]
    exact insertSnap_groupsOf l (buildGroups l) x ih

theorem foldl_min_le (l : List Int) :
    ∀ (a : Int), l.foldl min a ≤ a ∧ ∀ x ∈ l, l.foldl min a ≤ x := by
  induction l with
  | nil => intro a; exact ⟨le_refl a, by simp⟩
  | cons b t ih =>
    intro a
    simp only [List.foldl_cons]
    obtain ⟨i1, i2⟩ := ih (min a b)
    refine ⟨le_trans i1 (min_le_left a b), ?_⟩
    intro x hx
    rcases List.mem_cons.mp hx with h | h
    · subst h
      exact le_trans i1 (min_le_right a x)
    · exact i2 x h

theorem le_foldl_max (l : List Int) :
    ∀ (a : Int), a ≤ l.foldl max a ∧ ∀ x ∈ l, x ≤ l.foldl max a := by
  induction l with
  | nil => intro a; exact ⟨le_refl a, by simp⟩
  | cons b t ih =>
    intro a
    simp only [List.foldl_cons]
    obtain ⟨i1, i2⟩ := ih (max a b)
    refine ⟨le_trans (le_max_left a b) i1, ?_⟩
    intro x hx
    rcases List.mem_cons.mp hx with h | h
    · subst h
      exact le_trans (le_max_right a x) i1
    · exact i2 x h

theorem listMin_le (l : List Int) (x : Int) (hx : x ∈ l) : listMin l ≤ x := by
  cases l with
  | nil => simp at hx
  | cons a t =>
    rcases List.mem_cons.mp hx with h | h
    · exact h ▸ (foldl_min_le t a).1
    · exact (foldl_min_le t a).2 x h

theorem le_listMax (l : List Int) (x : Int) (hx : x ∈ l) : x ≤ listMax l := by
  cases l with
  | nil => simp at hx
  | cons a t =>
    rcases List.mem_cons.mp hx with h | h
    · exact h ▸ (le_foldl_max t a).1
    · exact (le_foldl_max t a).2 x h

theorem sumFold_eq (l : List Int) : l.foldl (fun a b => a + b) 0 = l.sum := by
  rw [List.sum_eq_foldl]

theorem sum_bounds (l : List Int) :
    (l.length : ℤ) * listMin l ≤ l.sum ∧ l.sum ≤ (l.length : ℤ) * listMax l := by
  constructor
  · have := List.card_nsmul_le_sum l (listMin l) (fun x hx => listMin_le l x hx)
    simpa [nsmul_eq_mul] using this
  · have := List.sum_le_card_nsmul l (listMax l) (fun x hx => le_listMax l x hx)
    simpa [nsmul_eq_mul] using this

theorem jsRound_intCast (m : ℤ) : jsRound (m : ℚ) = m := by
  unfold jsRound
  rw [Int.floor_eq_iff]
  constructor
  · norm_num
  · norm_num

theorem jsRound_mono {p q : ℚ} (h : p ≤ q) : jsRound p ≤ jsRound q :=
  Int.floor_le_floor (by linarith)

theorem point_min_le_avg (l : List Int) (hne : l ≠ []) :
    (listMin l : ℚ) / 100
        ≤ ((jsRound (((l.foldl (fun a b => a + b) 0 : Int) : ℚ) / (l.length : ℚ))) : ℚ) / 100 ∧
    ((jsRound (((l.foldl (fun a b => a + b) 0 : Int) : ℚ) / (l.length : ℚ))) : ℚ) / 100
        ≤ (listMax l : ℚ) / 100 := by
  have hlen : 0 < l.length := List.length_pos.mpr hne
  have hlenQ : (0 : ℚ) < (l.length : ℚ) := by exact_mod_cast hlen
  rw [sumFold_eq]
  obtain ⟨hb1, hb2⟩ := sum_bounds l
  have hminQ : (listMin l : ℚ) ≤ ((l.sum : ℤ) : ℚ) / (l.length : ℚ) := by
    rw [le_div_iff₀ hlenQ, mul_comm]
    exact_mod_cast hb1
  have hmaxQ : ((l.sum : ℤ) : ℚ) / (l.length : ℚ) ≤ (listMax l : ℚ) := by
    rw [div_le_iff₀ hlenQ, mul_comm]
    exact_mod_cast hb2
  have h1 : listMin l ≤ jsRound (((l.sum : ℤ) : ℚ) / (l.length : ℚ)) := by
    calc listMin l = jsRound ((listMin l : ℤ) : ℚ) := (jsRound_intCast _).symm
    _ ≤ jsRound (((l.sum : ℤ) : ℚ) / (l.length : ℚ)) := jsRound_mono hminQ
  have h2 : jsRound (((l.sum : ℤ) : ℚ) / (l.length : ℚ)) ≤ listMax l := by
    calc jsRound (((l.sum : ℤ) : ℚ) / (l.length : ℚ))
        ≤ jsRound ((listMax l : ℤ) : ℚ) := jsRound_mono hmaxQ
    _ = listMax l := jsRound_intCast _
  constructor
  · gcongr
  · gcongr

theorem pointLE_trans (a b c : AggregatedPricePoint)
    (h1 : pointLE a b = true) (h2 : pointLE b c = true) : pointLE a c = true := by
  simp only [pointLE, decide_eq_true_eq] at *
  omega

theorem pointLE_total (a b : AggregatedPricePoint) : (pointLE a b || pointLE b a) = true := by
  simp only [pointLE, Bool.or_eq_true, decide_eq_true_eq]
  omega

theorem aggregateSnapshots_sorted (snaps : List SnapIn) :
    List.Sorted (fun p q => jsDateTime p.fullDate ≤ jsDateTime q.fullDate)
      (aggregateSnapshots snaps) := by
  unfold aggregateSnapshots
  split
  · exact List.sorted_nil
  · have hp := @List.sorted_mergeSort AggregatedPricePoint pointLE pointLE_trans
      pointLE_total ((buildGroups snaps).map toPoint)
    exact hp.imp (fun h => by simpa [pointLE, decide_eq_true_eq] using h)

/-- C9: `aggregateSnapshots` maps the empty list to the empty list;
every snapshot key is covered by a group; every returned point is the
aggregation of the snapshots sharing one minute-level key — count the
group size, min / rounded mean / max of the group prices each divided by
100, with min ≤ avg ≤ max — and the points come back sorted by ascending
timestamp. -/
theorem aggregateSnapshots_spec (snaps : List SnapIn) :
    (snaps = [] → aggregateSnapshots snaps = []) ∧
    (∀ s ∈ snaps, ∃ g ∈ buildGroups snaps, g.key = minuteKey s.scraped_at) ∧
    (∀ p ∈ aggregateSnapshots snaps, ∃ g ∈ buildGroups snaps,
        p = toPoint g ∧
        g.prices = (snaps.filter (fun s => minuteKey s.scraped_at = g.key)).map SnapIn.price ∧
        g.prices ≠ [] ∧
        p.count = g.prices.length ∧
        p.min = (listMin g.prices : ℚ) / 100 ∧
        p.max = (listMax g.prices : ℚ) / 100 ∧
        p.avg = ((jsRound (((g.prices.foldl (fun a b => a + b) 0 : Int) : ℚ)
                    / (g.prices.length : ℚ))) : ℚ) / 100 ∧
        p.min ≤ p.avg ∧ p.avg ≤ p.max) ∧
    ((buildGroups snaps).map SnapGroup.key).Nodup ∧
    List.Sorted (fun p q => jsDateTime p.fullDate ≤ jsDateTime q.fullDate)
      (aggregateSnapshots snaps) := by
  obtain ⟨i1, i2, i3, i4⟩ := buildGroups_groupsOf snaps
  refine ⟨?_, ?_, ?_, i2, aggregateSnapshots_sorted snaps⟩
  · intro h; subst h; rfl
  · intro s hs
    have hmem := i3 s hs
    rw [List.mem_map] at hmem
    obtain ⟨g, hg, hkey⟩ := hmem
    exact ⟨g, hg, hkey⟩
  · intro p hp
    have hmem : p ∈ (buildGroups snaps).map toPoint := by
      unfold aggregateSnapshots at hp
      split at hp
      · simp at hp
      · exact ((List.mergeSort_perm _ pointLE).mem_iff).mp hp
    rw [List.mem_map] at hmem
    obtain ⟨g, hg, hpg⟩ := hmem
    subst hpg
    have hpr := i1 g hg
    have hne : g.prices ≠ [] := by
      obtain ⟨s, hs, hs1, hs2⟩ := i4 g hg
      have hfil : s ∈ snaps.filter (fun t => minuteKey t.scraped_at = g.key) :=
        List.mem_filter.mpr ⟨hs, by simpa using hs2⟩
      intro hcon
      rw [hpr, List.map_eq_nil_iff] at hcon
      rw [hcon] at hfil
      simp at hfil
    refine ⟨g, hg, rfl, hpr, hne, rfl, rfl, rfl, rfl, ?_, ?_⟩
    · exact (point_min_le_avg g.prices hne).1
    · exact (point_min_le_avg g.prices hne).2

/-- C9 witness: on three concrete snapshots (two sharing minute
2026-02-12T15:30) the theorem yields the first aggregated point with its
group of two prices. -/
theorem aggregateSnapshots_spec_witness :
    ∃ g ∈ buildGroups snaps0,
      toPoint group0 = toPoint g ∧
      g.prices = (snaps0.filter (fun s => minuteKey s.scraped_at = g.key)).map SnapIn.price ∧
      g.prices ≠ [] ∧
      (toPoint group0).count = g.prices.length ∧
      (toPoint group0).min = (listMin g.prices : ℚ) / 100 ∧
      (toPoint group0).max = (listMax g.prices : ℚ) / 100 ∧
      (toPoint group0).avg = ((jsRound (((g.prices.foldl (fun a b => a + b) 0 : Int) : ℚ)
              / (g.prices.length : ℚ))) : ℚ) / 100 ∧
      (toPoint group0).min ≤ (toPoint group0).avg ∧
      (toPoint group0).avg ≤ (toPoint group0).max :=
  (aggregateSnapshots_spec snaps0).2.2.1 (toPoint group0) (by
    have h0 : aggregateSnapshots snaps0
        = ((buildGroups snaps0).map toPoint).mergeSort pointLE := rfl
    rw [h0, (List.mergeSort_perm _ pointLE).mem_iff]
    have hb : buildGroups snaps0 = [group0, group1] := by decide
    rw [hb]
    exact List.mem_map_of_mem toPoint (List.mem_cons_self group0 [group1]))

end TravelPrice
